import Mathlib

/-!
Shallow embedding of `logger.go` from hadi77ir/go-influxlogger, together with
theorems settling the specification claims about it.

Conventions of the embedding:
- Go maps are modelled extensionally as `Option`-valued functions from keys.
  Map keys that undergo string surgery (the `"fields."` prefix) are modelled
  as `List Char` so that prefix/append reasoning is elementary.
- The external influxdb3 client is modelled as a deterministic oracle
  `SinkOracle : List (Option Point) → Option GoErr` (batches may contain `none`
  entries, mirroring nil `*influxdb3.Point` slots in a Go slice).
- The external `go-ringqueue` dependency is modelled from the spec contract
  (fixed capacity, FIFO, `WhenFullError` / `WhenEmptyError` policies).
- `time.Time` is modelled as a record carrying its unix instant and its
  RFC3339 UTC rendering (the stdlib formatting is treated as an attribute of
  the time value).
-/

namespace InfluxLogger

/-- The seven levels of the collaborating `go-logging` package. -/
inductive Level
  | traceLevel
  | debugLevel
  | infoLevel
  | warnLevel
  | errorLevel
  | fatalLevel
  | panicLevel
  deriving DecidableEq

/-- Scalar values stored in Go `any`-valued maps (ints, strings, bools cover
every value the source writes). -/
inductive GoVal
  | vint (n : Int)
  | vstr (s : String)
  | vbool (b : Bool)
  deriving DecidableEq

/-- Errors of the pipeline: construction errors, ring-buffer conditions and
sink (network) failures. -/
inductive GoErr
  | connection
  | invalidFlushInterval
  | bufferFull
  | bufferEmpty
  | sinkFailure (msg : String)
  deriving DecidableEq

/-- `time.Time`, carrying the instant and its RFC3339 UTC rendering
(`t.UTC().Format(time.RFC3339)` is embedded as the field `utcRFC3339`). -/
structure GoTime where
  unixNano : Int
  utcRFC3339 : String
  deriving DecidableEq

/-- Keys of string-keyed Go maps, as character lists. -/
def Key : Type := List Char

instance : DecidableEq Key := inferInstanceAs (DecidableEq (List Char))

instance : Append Key := inferInstanceAs (Append (List Char))

/-- `logging.Fields` (`map[string]interface\x7b\x7d`), extensionally. -/
def Fields : Type := Key → Option GoVal

/-- The field set of a point (`map[string]any`), extensionally. -/
def FieldMap : Type := Key → Option GoVal

/-- `var severityMap = map[logging.Level]string{...}` (logger.go:17). -/
def severityMap : Level → String
  | .traceLevel => "debug"
  | .debugLevel => "debug"
  | .infoLevel => "info"
  | .warnLevel => "warn"
  | .errorLevel => "err"
  | .fatalLevel => "alert"
  | .panicLevel => "emerg"

/-- `var severityCode = map[logging.Level]int{...}` (logger.go:27). -/
def severityCode : Level → Int
  | .traceLevel => 7
  | .debugLevel => 7
  | .infoLevel => 6
  | .warnLevel => 4
  | .errorLevel => 3
  | .fatalLevel => 1
  | .panicLevel => 0

/-- Default rendering of one operand, as `fmt.Sprint` renders it. -/
def goFormat : GoVal → String
  | .vint n => toString n
  | .vstr s => s
  | .vbool b => if b then "true" else "false"

/-- Whether an operand is a Go string (governs `fmt.Sprint` spacing). -/
def isStringOperand : GoVal → Bool
  | .vstr _ => true
  | _ => false

/-- `fmt.Sprint(args...)`: operands in their default formats, a space added
between two successive operands when neither is a string. -/
def goSprint : List GoVal → String
  | [] => ""
  | [a] => goFormat a
  | a :: b :: rest =>
    goFormat a ++ (if !isStringOperand a && !isStringOperand b then " " else "")
      ++ goSprint (b :: rest)

/-- One sink-ready data point (`influxdb3.Point` as built by
`influxdb3.NewPoint(measurement, tags, fields, timestamp)`). -/
structure Point where
  measurement : String
  tags : String → Option String
  fields : FieldMap
  time : GoTime

/-- Modelled from the spec: the external `go-ringqueue` dependency used with
`ringqueue.NewUnsafe[*influxdb3.Point](limit, WhenFullError, WhenEmptyError, nil)`
— a fixed-capacity FIFO queue whose push fails with a full error at capacity
and whose pop fails with an empty error on an empty queue and otherwise
returns the oldest element (spec section 4.2). -/
structure RingBuf where
  cap : Nat
  data : List Point

/-- `Len()`: current number of queued points. -/
def RingBuf.len (b : RingBuf) : Nat := b.data.length

/-- `Push(point)`: error at capacity (policy `WhenFullError`), else enqueue. -/
def RingBuf.push (b : RingBuf) (p : Point) : Except GoErr RingBuf :=
  if b.data.length = b.cap then Except.error GoErr.bufferFull
  else Except.ok { cap := b.cap, data := b.data ++ [p] }

/-- `Pop()`: error when empty (policy `WhenEmptyError`), else dequeue oldest. -/
def RingBuf.pop (b : RingBuf) : Except GoErr (Point × RingBuf) :=
  match b.data with
  | [] => Except.error GoErr.bufferEmpty
  | p :: rest => Except.ok (p, { cap := b.cap, data := rest })

/-- The `LogWriter` struct (logger.go:37).  `client` is replaced by the sink
oracle passed to the operations; `flushMutex` is modelled in the concurrent
transition system further below. -/
structure LogWriter where
  measurement : String
  appName : String
  host : String
  tags : Level → (String → Option String)
  fields : FieldMap
  flushInterval : Int
  buffer : Option RingBuf

/-- The key string `"fields."` prepended to structured-field keys. -/
def fieldsDot : Key := "fields.".toList

def kFacilityCode : Key := "facility_code".toList
def kMessage : Key := "message".toList
def kProcid : Key := "procid".toList
def kSeverityCode : Key := "severity_code".toList
def kTimestamp : Key := "timestamp".toList
def kVersion : Key := "version".toList

/-- The default field map assigned at construction (logger.go:77-84). -/
def defaultFieldsMap (procId : String) : FieldMap := fun s =>
  if s = kFacilityCode then some (GoVal.vint 1)
  else if s = kMessage then some (GoVal.vstr "")
  else if s = kProcid then some (GoVal.vstr procId)
  else if s = kSeverityCode then some (GoVal.vint 7)
  else if s = kTimestamp then some (GoVal.vint 0)
  else if s = kVersion then some (GoVal.vint 1)
  else none

/-- The per-level tag set built by the `// initialize tags` loop
(logger.go:68-76). -/
def levelTagSet (appName host : String) (level : Level) : String → Option String :=
  fun k =>
    if k = "appname" then some appName
    else if k = "host" then some host
    else if k = "hostname" then some host
    else if k = "facility" then some "user"
    else if k = "severity" then some (severityMap level)
    else none

/-- The writer state that the assignments inside `NewLogWriter`
(logger.go:57-84) produce: `measurement` is never assigned and stays at the
zero value `""`; the buffer exists exactly for `bufferLimit > 0`.  (The
literal constructor panics before completing these assignments — see
`NewLogWriter` below — so this is the intended post-construction state that
all behavioural claims quantify over.) -/
def mkLogWriter (appName host procId : String) (flushInterval : Int)
    (bufferLimit : Int) : LogWriter :=
  { measurement := ""
    appName := appName
    host := host
    tags := fun level => levelTagSet appName host level
    fields := defaultFieldsMap procId
    flushInterval := flushInterval
    buffer :=
      if bufferLimit > 0 then some { cap := bufferLimit.toNat, data := [] } else none }

/-- `LogWriter.getFields` (logger.go:97-112): structured fields prefixed with
`"fields."`, then the writer's default fields copied over, then
`severity_code`, `timestamp` and `message` recomputed last. -/
def getFields (w : LogWriter) (level : Level) (args : List GoVal)
    (fields : Fields) (timestamp : GoTime) : FieldMap :=
  let msg := goSprint args
  let m1 : FieldMap := fun s =>
    if fieldsDot.isPrefixOf s then fields (s.drop fieldsDot.length) else none
  let m2 : FieldMap := fun s =>
    match w.fields s with
    | some v => some v
    | none => m1 s
  fun s =>
    if s = kSeverityCode then some (GoVal.vint (severityCode level))
    else if s = kTimestamp then some (GoVal.vstr timestamp.utcRFC3339)
    else if s = kMessage then some (GoVal.vstr msg)
    else m2 s

/-- A prefixed structured-field key never equals a key whose first seven
characters differ from `"fields."`. -/
lemma fieldsDot_append_ne (k key : Key)
    (h : List.take (List.length fieldsDot) key ≠ fieldsDot) :
    ¬ (fieldsDot ++ k : Key) = key := by
  intro he
  apply h
  rw [← he]
  exact List.take_left fieldsDot k

lemma fieldsDot_isPrefixOf_append (k : Key) :
    fieldsDot.isPrefixOf (fieldsDot ++ k : Key) = true := by
  exact List.isPrefixOf_iff_prefix.mpr (List.prefix_append fieldsDot k)

/-- The sink (`client.WritePoints`) as a deterministic oracle mapping a batch
to its outcome.  Batch entries are `Option Point` because Go slices of
pointers may hold nil slots. -/
def SinkOracle : Type := List (Option Point) → Option GoErr

/-- The point built at the top of `LogWriter.Write` (logger.go:90):
`influxdb3.NewPoint(w.measurement, w.tags[level], w.getFields(...), timestamp)`. -/
def mkWritePoint (w : LogWriter) (level : Level) (args : List GoVal)
    (fields : Fields) (ts : GoTime) : Point :=
  { measurement := w.measurement
    tags := w.tags level
    fields := getFields w level args fields ts
    time := ts }

/-- The loop body of `flushBuffer` (logger.go:129-135):
`for i := 0; i < w.buffer.Len(); i++ { point, _, err := w.buffer.Pop(); if err != nil { break }; points[i] = point }`.
The loop condition re-reads the shrinking `Len()` each iteration.  `fuel` is
the initial length: since `i` grows by one per iteration and the length never
grows, the loop body runs at most `fuel` times, so the fuel never cuts the
loop short and the recursion is structural. -/
def drainLoop (fuel : Nat) (buf : RingBuf) (points : List (Option Point))
    (i : Nat) : RingBuf × List (Option Point) :=
  match fuel with
  | 0 => (buf, points)
  | Nat.succ fuel2 =>
    if i < buf.len then
      match buf.pop with
      | Except.error _ => (buf, points)
      | Except.ok (p, buf2) => drainLoop fuel2 buf2 (points.set i (some p)) (i + 1)
    else (buf, points)

/-- Result of one `flushBuffer` call: the sink outcome, the buffer left
behind, and the batch slice passed to the sink. -/
structure FlushRes where
  err : Option GoErr
  buf : RingBuf
  batch : List (Option Point)

/-- `LogWriter.flushBuffer` (logger.go:127-137): allocate
`points := make([]*influxdb3.Point, w.buffer.Len())` (all slots nil), run the
pop loop, and hand the slice to the sink. -/
def flushBuffer (sink : SinkOracle) (buf : RingBuf) : FlushRes :=
  let n := buf.len
  let r := drainLoop n buf (List.replicate n none) 0
  { err := sink r.2, buf := r.1, batch := r.2 }

/-- Result of one `Write` call: the returned error, the writer state left
behind, and the batches handed to the sink, in order. -/
structure WriteRes where
  err : Option GoErr
  writer : LogWriter
  sent : List (List (Option Point))

/-- `LogWriter.writeBuffered` (logger.go:114-125): under the flush mutex, if
the buffer is at capacity flush it (propagating a sink error without pushing),
then push the new point. -/
def writeBuffered (sink : SinkOracle) (w : LogWriter) (b : RingBuf)
    (point : Point) : WriteRes :=
  if b.len = b.cap then
    let fr := flushBuffer sink b
    match fr.err with
    | some e =>
      { err := some e, writer := { w with buffer := some fr.buf }, sent := [fr.batch] }
    | none =>
      match fr.buf.push point with
      | Except.error e =>
        { err := some e, writer := { w with buffer := some fr.buf }, sent := [fr.batch] }
      | Except.ok b2 =>
        { err := none, writer := { w with buffer := some b2 }, sent := [fr.batch] }
  else
    match b.push point with
    | Except.error e => { err := some e, writer := w, sent := [] }
    | Except.ok b2 => { err := none, writer := { w with buffer := some b2 }, sent := [] }

/-- `LogWriter.Write` (logger.go:88-95): encode the point, then either write
it synchronously as a single-point batch (`flushInterval == 0 || buffer == nil`)
or go through the buffered path. -/
def LogWriter.Write (sink : SinkOracle) (w : LogWriter) (level : Level)
    (args : List GoVal) (fields : Fields) (ts : GoTime) : WriteRes :=
  let point := mkWritePoint w level args fields ts
  match w.buffer with
  | none => { err := sink [some point], writer := w, sent := [[some point]] }
  | some b =>
    if w.flushInterval = 0 then
      { err := sink [some point], writer := w, sent := [[some point]] }
    else writeBuffered sink w b point

/-- A sequence of `Write` calls threading the writer state, collecting every
batch handed to the sink. -/
def runWrites (sink : SinkOracle) (w : LogWriter)
    (calls : List (Level × List GoVal × Fields × GoTime)) :
    LogWriter × List (List (Option Point)) :=
  calls.foldl
    (fun acc c =>
      ((LogWriter.Write sink acc.1 c.1 c.2.1 c.2.2.1 c.2.2.2).writer,
        acc.2 ++ (LogWriter.Write sink acc.1 c.1 c.2.1 c.2.2.1 c.2.2.2).sent))
    (w, [])

/-! ### Concrete fixtures used by evaluation and witness theorems -/

/-- A sink that accepts every batch. -/
def sinkOk : SinkOracle := fun _ => none

/-- A sink that rejects every batch with the same failure. -/
def sinkBoom : SinkOracle := fun _ => some (GoErr.sinkFailure "boom")

/-- The empty structured-field set. -/
def noFields : Fields := fun _ => none

def t1 : GoTime := { unixNano := 1, utcRFC3339 := "2026-01-01T00:00:01Z" }
def t2 : GoTime := { unixNano := 2, utcRFC3339 := "2026-01-01T00:00:02Z" }
def t3 : GoTime := { unixNano := 3, utcRFC3339 := "2026-01-01T00:00:03Z" }
def t4 : GoTime := { unixNano := 4, utcRFC3339 := "2026-01-01T00:00:04Z" }

/-- A buffered writer: capacity 3, flush interval 1 (buffering enabled). -/
def w0 : LogWriter := mkLogWriter "app" "host1" "pid1" 1 3

/-- Four sequential info-level writes with distinct messages and times. -/
def callList : List (Level × List GoVal × Fields × GoTime) :=
  [(Level.infoLevel, [GoVal.vstr "a"], noFields, t1),
   (Level.infoLevel, [GoVal.vstr "b"], noFields, t2),
   (Level.infoLevel, [GoVal.vstr "c"], noFields, t3),
   (Level.infoLevel, [GoVal.vstr "d"], noFields, t4)]

/-- The point the i-th call of `callList` encodes. -/
def pW (a : String) (t : GoTime) : Point :=
  mkWritePoint w0 Level.infoLevel [GoVal.vstr a] noFields t

/-! ### Claim theorems -/

/-- C4: for each of the seven levels the severity keyword and severity code
equal the fixed static table — trace and debug both map to "debug"/7, info to
"info"/6, warn to "warn"/4, error to "err"/3, fatal to "alert"/1, panic to
"emerg"/0. -/
theorem severity_table_matches :
    severityMap Level.traceLevel = "debug" ∧ severityCode Level.traceLevel = 7 ∧
    severityMap Level.debugLevel = "debug" ∧ severityCode Level.debugLevel = 7 ∧
    severityMap Level.infoLevel = "info" ∧ severityCode Level.infoLevel = 6 ∧
    severityMap Level.warnLevel = "warn" ∧ severityCode Level.warnLevel = 4 ∧
    severityMap Level.errorLevel = "err" ∧ severityCode Level.errorLevel = 3 ∧
    severityMap Level.fatalLevel = "alert" ∧ severityCode Level.fatalLevel = 1 ∧
    severityMap Level.panicLevel = "emerg" ∧ severityCode Level.panicLevel = 0 := by
  repeat constructor

/-- C3: for every level and inputs, the encoded field set contains `message`
equal to the default stringification of the arguments, `severity_code` equal
to the table value for the level, `timestamp` equal to the RFC3339 UTC
rendering of the event time, one `fields.<k>` entry per supplied
structured-field key with its value, and the static defaults
`facility_code = 1`, `procid` and `version = 1`; `severity_code`, `timestamp`
and `message` are computed last and override any same-named earlier entry. -/
theorem getFields_round_trip (app host pid : String) (fi bl : Int)
    (level : Level) (args : List GoVal) (fields : Fields) (ts : GoTime) :
    getFields (mkLogWriter app host pid fi bl) level args fields ts kMessage
        = some (GoVal.vstr (goSprint args)) ∧
    getFields (mkLogWriter app host pid fi bl) level args fields ts kSeverityCode
        = some (GoVal.vint (severityCode level)) ∧
    getFields (mkLogWriter app host pid fi bl) level args fields ts kTimestamp
        = some (GoVal.vstr ts.utcRFC3339) ∧
    (∀ k : Key,
      getFields (mkLogWriter app host pid fi bl) level args fields ts (fieldsDot ++ k)
        = fields k) ∧
    getFields (mkLogWriter app host pid fi bl) level args fields ts kFacilityCode
        = some (GoVal.vint 1) ∧
    getFields (mkLogWriter app host pid fi bl) level args fields ts kProcid
        = some (GoVal.vstr pid) ∧
    getFields (mkLogWriter app host pid fi bl) level args fields ts kVersion
        = some (GoVal.vint 1) := by
  refine ⟨?_, ?_, ?_, ?_, ?_, ?_, ?_⟩
  · simp only [getFields]
    rw [if_neg (by decide : ¬ kMessage = kSeverityCode),
        if_neg (by decide : ¬ kMessage = kTimestamp)]
    simp
  · simp only [getFields]
    simp
  · simp only [getFields]
    rw [if_neg (by decide : ¬ kTimestamp = kSeverityCode)]
    simp
  · intro k
    simp only [getFields]
    rw [if_neg (fieldsDot_append_ne k kSeverityCode (by decide)),
        if_neg (fieldsDot_append_ne k kTimestamp (by decide)),
        if_neg (fieldsDot_append_ne k kMessage (by decide))]
    simp only [mkLogWriter, defaultFieldsMap]
    rw [if_neg (fieldsDot_append_ne k kFacilityCode (by decide)),
        if_neg (fieldsDot_append_ne k kMessage (by decide)),
        if_neg (fieldsDot_append_ne k kProcid (by decide)),
        if_neg (fieldsDot_append_ne k kSeverityCode (by decide)),
        if_neg (fieldsDot_append_ne k kTimestamp (by decide)),
        if_neg (fieldsDot_append_ne k kVersion (by decide))]
    rw [if_pos (fieldsDot_isPrefixOf_append k)]
    rw [List.drop_left fieldsDot k]
  · simp only [getFields]
    rw [if_neg (by decide : ¬ kFacilityCode = kSeverityCode),
        if_neg (by decide : ¬ kFacilityCode = kTimestamp),
        if_neg (by decide : ¬ kFacilityCode = kMessage)]
    simp only [mkLogWriter, defaultFieldsMap]
    simp
  · simp only [getFields]
    rw [if_neg (by decide : ¬ kProcid = kSeverityCode),
        if_neg (by decide : ¬ kProcid = kTimestamp),
        if_neg (by decide : ¬ kProcid = kMessage)]
    simp only [mkLogWriter, defaultFieldsMap]
    rw [if_neg (by decide : ¬ kProcid = kFacilityCode),
        if_neg (by decide : ¬ kProcid = kMessage)]
    simp
  · simp only [getFields]
    rw [if_neg (by decide : ¬ kVersion = kSeverityCode),
        if_neg (by decide : ¬ kVersion = kTimestamp),
        if_neg (by decide : ¬ kVersion = kMessage)]
    simp only [mkLogWriter, defaultFieldsMap]
    rw [if_neg (by decide : ¬ kVersion = kFacilityCode),
        if_neg (by decide : ¬ kVersion = kMessage),
        if_neg (by decide : ¬ kVersion = kProcid),
        if_neg (by decide : ¬ kVersion = kSeverityCode),
        if_neg (by decide : ¬ kVersion = kTimestamp)]
    simp

/-- C1: evaluation of the code at the failing input.  With buffering enabled
and capacity 3, four sequential `Write` calls do NOT behave as the claim
states.  The drain loop `for i := 0; i < w.buffer.Len(); i++` re-reads the
shrinking `Len()` each iteration, so it pops only 2 of the 3 pending points:
the one sink write carries the slice `[p1, p2, nil]` (the third slot stays at
its nil zero value from `make`), and the buffer afterwards holds the third
AND fourth points — not only the 4th. -/
theorem forced_drain_partial_eval :
    (runWrites sinkOk w0 callList).2 = [[some (pW "a" t1), some (pW "b" t2), none]] ∧
    (runWrites sinkOk w0 callList).1.buffer
      = some { cap := 3, data := [pW "c" t3, pW "d" t4] } :=
  ⟨rfl, rfl⟩

/-- Popping succeeds exactly on a non-empty buffer and dequeues the head,
keeping the capacity. -/
lemma pop_ok_shape (b : RingBuf) (p : Point) (b2 : RingBuf)
    (h : b.pop = Except.ok (p, b2)) : b.data = p :: b2.data ∧ b2.cap = b.cap := by
  cases hd : b.data with
  | nil => simp [RingBuf.pop, hd] at h
  | cons q rest =>
    simp [RingBuf.pop, hd] at h
    obtain ⟨h1, h2⟩ := h
    subst h1
    subst h2
    exact ⟨rfl, rfl⟩

/-- The drain loop never grows the buffer. -/
lemma drainLoop_fst_len_le (fuel : Nat) :
    ∀ (buf : RingBuf) (pts : List (Option Point)) (i : Nat),
      ((drainLoop fuel buf pts i).1).len ≤ buf.len := by
  induction fuel with
  | zero => intro buf pts i; simp [drainLoop]
  | succ n ih =>
    intro buf pts i
    simp only [drainLoop]
    split
    · cases hp : buf.pop with
      | error e => simp [hp]
      | ok pr =>
        obtain ⟨p, b2⟩ := pr
        simp only [hp]
        have hs := pop_ok_shape buf p b2 hp
        have hlen : b2.len + 1 = buf.len := by
          simp [RingBuf.len, hs.1]
        calc ((drainLoop n b2 (pts.set i (some p)) (i+1)).1).len ≤ b2.len := ih _ _ _
          _ ≤ buf.len := by omega
    · exact le_refl _

/-- The drain loop keeps the buffer capacity. -/
lemma drainLoop_fst_cap (fuel : Nat) :
    ∀ (buf : RingBuf) (pts : List (Option Point)) (i : Nat),
      ((drainLoop fuel buf pts i).1).cap = buf.cap := by
  induction fuel with
  | zero => intro buf pts i; simp [drainLoop]
  | succ n ih =>
    intro buf pts i
    simp only [drainLoop]
    split
    · cases hp : buf.pop with
      | error e => simp [hp]
      | ok pr =>
        obtain ⟨p, b2⟩ := pr
        simp only [hp]
        have hs := pop_ok_shape buf p b2 hp
        rw [ih b2 (pts.set i (some p)) (i+1)]
        exact hs.2
    · rfl

/-- A flush of a non-empty buffer pops at least one point. -/
lemma flushBuffer_buf_len_lt (sink : SinkOracle) (b : RingBuf) (h : 0 < b.len) :
    ((flushBuffer sink b).buf).len < b.len := by
  simp only [flushBuffer]
  obtain ⟨m, hn⟩ : ∃ m, b.len = m + 1 := ⟨b.len - 1, by omega⟩
  simp only [drainLoop, hn]
  rw [if_pos (by omega : 0 < m + 1)]
  cases hp : b.pop with
  | error e =>
    exfalso
    cases hd : b.data with
    | nil => simp [RingBuf.len, hd] at hn
    | cons q rest => simp [RingBuf.pop, hd] at hp
  | ok pr =>
    obtain ⟨p, b2⟩ := pr
    simp only [hp]
    have hs := pop_ok_shape b p b2 hp
    have hlen : b2.len + 1 = b.len := by simp [RingBuf.len, hs.1]
    exact lt_of_le_of_lt (drainLoop_fst_len_le m b2 _ _) (by omega)

/-- C5: whenever buffering is disabled (flush interval 0 or no buffer — the
constructor creates no buffer for capacity 0), every `Write` issues exactly
one sink call carrying exactly the single newly encoded point, the sink's
outcome is returned unchanged, and the writer (hence the ring buffer) is left
untouched. -/
theorem sync_write_single_point (sink : SinkOracle) (w : LogWriter)
    (level : Level) (args : List GoVal) (fields : Fields) (ts : GoTime)
    (hdis : w.flushInterval = 0 ∨ w.buffer = none) :
    (LogWriter.Write sink w level args fields ts).sent
        = [[some (mkWritePoint w level args fields ts)]] ∧
    (LogWriter.Write sink w level args fields ts).err
        = sink [some (mkWritePoint w level args fields ts)] ∧
    (LogWriter.Write sink w level args fields ts).writer = w := by
  cases hw : w.buffer with
  | none => simp [LogWriter.Write, hw]
  | some b =>
    rcases hdis with h0 | hnone
    · simp [LogWriter.Write, hw, h0]
    · rw [hw] at hnone
      cases hnone

/-- An unbuffered writer (interval 0, no buffer). -/
def w5 : LogWriter := mkLogWriter "app" "host1" "pid1" 0 0

/-- Witness for C5 at a concrete unbuffered writer. -/
theorem sync_write_single_point_witness :
    (LogWriter.Write sinkOk w5 Level.infoLevel [GoVal.vstr "x"] noFields t1).sent
        = [[some (mkWritePoint w5 Level.infoLevel [GoVal.vstr "x"] noFields t1)]] ∧
    (LogWriter.Write sinkOk w5 Level.infoLevel [GoVal.vstr "x"] noFields t1).err
        = sinkOk [some (mkWritePoint w5 Level.infoLevel [GoVal.vstr "x"] noFields t1)] ∧
    (LogWriter.Write sinkOk w5 Level.infoLevel [GoVal.vstr "x"] noFields t1).writer = w5 :=
  sync_write_single_point sinkOk w5 Level.infoLevel [GoVal.vstr "x"] noFields t1
    (Or.inl rfl)

/-- C6: for every buffered `Write` that triggers a forced drain, a sink error
during the drain is returned from `Write` and the newly encoded point is not
pushed (the buffer is left exactly as the drain left it); when the drain
succeeds the point is pushed onto the drained buffer. -/
theorem drain_error_propagation (sink : SinkOracle) (w : LogWriter)
    (b : RingBuf) (level : Level) (args : List GoVal) (fields : Fields)
    (ts : GoTime) (hb : w.buffer = some b) (hi : ¬ w.flushInterval = 0)
    (hfull : b.len = b.cap) (hcap : 0 < b.cap) :
    (∀ e, (flushBuffer sink b).err = some e →
        (LogWriter.Write sink w level args fields ts).err = some e ∧
        (LogWriter.Write sink w level args fields ts).writer.buffer
          = some (flushBuffer sink b).buf) ∧
    ((flushBuffer sink b).err = none →
        (LogWriter.Write sink w level args fields ts).err = none ∧
        (LogWriter.Write sink w level args fields ts).writer.buffer
          = some { cap := b.cap,
                   data := (flushBuffer sink b).buf.data
                     ++ [mkWritePoint w level args fields ts] }) := by
  have hwr : LogWriter.Write sink w level args fields ts
      = writeBuffered sink w b (mkWritePoint w level args fields ts) := by
    simp [LogWriter.Write, hb, hi]
  have hc : (flushBuffer sink b).buf.cap = b.cap := by
    simp only [flushBuffer]
    exact drainLoop_fst_cap _ _ _ _
  constructor
  · intro e he
    rw [hwr]
    simp [writeBuffered, hfull, he]
  · intro he
    have hlt : ((flushBuffer sink b).buf).data.length < b.cap := by
      have hfull2 : b.data.length = b.cap := hfull
      have h2 := flushBuffer_buf_len_lt sink b (by omega)
      simp only [RingBuf.len] at h2
      omega
    have hne : ¬ ((flushBuffer sink b).buf.data.length
        = (flushBuffer sink b).buf.cap) := by
      rw [hc]
      omega
    have hpush : (flushBuffer sink b).buf.push (mkWritePoint w level args fields ts)
        = Except.ok { cap := b.cap,
                      data := (flushBuffer sink b).buf.data
                        ++ [mkWritePoint w level args fields ts] } := by
      simp only [RingBuf.push]
      rw [if_neg hne, hc]
    rw [hwr]
    simp [writeBuffered, hfull, he, hpush]

/-- A point held by the full capacity-1 buffer of the C6 witness. -/
def p6 : Point :=
  mkWritePoint (mkLogWriter "app" "host1" "pid1" 1 1) Level.infoLevel
    [GoVal.vstr "z"] noFields t1

/-- The capacity-1 buffer at capacity. -/
def b6 : RingBuf := { cap := 1, data := [p6] }

/-- A buffered writer whose buffer is at capacity. -/
def w6 : LogWriter :=
  { mkLogWriter "app" "host1" "pid1" 1 1 with buffer := some b6 }

/-- Witness for C6: against a failing sink, the forced drain's error comes
back out of `Write`. -/
theorem drain_error_propagation_witness :
    (LogWriter.Write sinkBoom w6 Level.infoLevel [GoVal.vstr "y"] noFields t2).err
      = some (GoErr.sinkFailure "boom") :=
  ((drain_error_propagation sinkBoom w6 b6 Level.infoLevel [GoVal.vstr "y"]
      noFields t2 rfl (by decide) rfl (by decide)).1
    (GoErr.sinkFailure "boom") rfl).1

/-- The points currently pending in the writer's ring buffer. -/
def bufPoints (w : LogWriter) : List Point :=
  match w.buffer with
  | none => []
  | some b => b.data

/-- The measurement invariant: the writer's measurement is the zero value
`""` and so is the measurement of every buffered point. -/
def MeasOK (w : LogWriter) : Prop :=
  w.measurement = "" ∧ ∀ p ∈ bufPoints w, p.measurement = ""

/-- A successful push appends the point and keeps the capacity. -/
lemma push_ok_shape (b : RingBuf) (p : Point) (b2 : RingBuf)
    (h : b.push p = Except.ok b2) : b2.data = b.data ++ [p] ∧ b2.cap = b.cap := by
  simp only [RingBuf.push] at h
  split at h
  · cases h
  · cases h
    exact ⟨rfl, rfl⟩

/-- Every point the drain loop leaves in the buffer or places in the batch
came from the original buffer or batch. -/
lemma drainLoop_pred (P : Point → Prop) (fuel : Nat) :
    ∀ (buf : RingBuf) (pts : List (Option Point)) (i : Nat),
      (∀ p ∈ buf.data, P p) →
      (∀ op ∈ pts, ∀ q, op = some q → P q) →
      (∀ p ∈ (drainLoop fuel buf pts i).1.data, P p) ∧
      (∀ op ∈ (drainLoop fuel buf pts i).2, ∀ q, op = some q → P q) := by
  induction fuel with
  | zero => intro buf pts i h1 h2; simpa [drainLoop] using ⟨h1, h2⟩
  | succ n ih =>
    intro buf pts i h1 h2
    simp only [drainLoop]
    split
    · cases hp : buf.pop with
      | error e => simpa [hp] using ⟨h1, h2⟩
      | ok pr =>
        obtain ⟨p, b2⟩ := pr
        simp only [hp]
        have hs := pop_ok_shape buf p b2 hp
        refine ih b2 (pts.set i (some p)) (i + 1) ?_ ?_
        · intro q hq
          exact h1 q (by rw [hs.1]; exact List.mem_cons_of_mem p hq)
        · intro op hop q hq
          rcases List.mem_or_eq_of_mem_set hop with hmem | heq
          · exact h2 op hmem q hq
          · subst heq
            cases hq
            exact h1 p (by rw [hs.1]; exact List.mem_cons_self p b2.data)
    · exact ⟨h1, h2⟩

/-- `writeBuffered` preserves the measurement invariant and only hands
`""`-measurement points to the sink. -/
lemma writeBuffered_meas (sink : SinkOracle) (w : LogWriter) (b : RingBuf)
    (point : Point) (hw : w.buffer = some b) (hmeas : w.measurement = "")
    (hbd : ∀ p ∈ b.data, p.measurement = "") (hpt : point.measurement = "") :
    MeasOK ((writeBuffered sink w b point).writer) ∧
    (∀ batch ∈ (writeBuffered sink w b point).sent,
      ∀ op ∈ batch, ∀ q, op = some q → q.measurement = "") := by
  have hrep : ∀ op ∈ List.replicate b.len (none : Option Point),
      ∀ q, op = some q → q.measurement = "" := by
    intro op hop q hq
    rw [List.eq_of_mem_replicate hop] at hq
    cases hq
  have hdl := drainLoop_pred (fun p => p.measurement = "") b.len b
    (List.replicate b.len none) 0 hbd hrep
  have hfrbuf : ∀ p ∈ (flushBuffer sink b).buf.data, p.measurement = "" := by
    simpa [flushBuffer] using hdl.1
  have hfrbatch : ∀ op ∈ (flushBuffer sink b).batch,
      ∀ q, op = some q → q.measurement = "" := by
    simpa [flushBuffer] using hdl.2
  simp only [writeBuffered]
  split
  · cases he : (flushBuffer sink b).err with
    | some e =>
      simp only [he]
      refine ⟨⟨hmeas, ?_⟩, ?_⟩
      · intro p hp
        simp only [bufPoints] at hp
        exact hfrbuf p hp
      · intro batch hbatch op hop q hq
        simp only [List.mem_singleton] at hbatch
        subst hbatch
        exact hfrbatch op hop q hq
    | none =>
      simp only [he]
      cases hpu : (flushBuffer sink b).buf.push point with
      | error e =>
        simp only []
        refine ⟨⟨hmeas, ?_⟩, ?_⟩
        · intro p hp
          simp only [bufPoints] at hp
          exact hfrbuf p hp
        · intro batch hbatch op hop q hq
          simp only [List.mem_singleton] at hbatch
          subst hbatch
          exact hfrbatch op hop q hq
      | ok b2 =>
        simp only []
        have hps := push_ok_shape _ _ _ hpu
        refine ⟨⟨hmeas, ?_⟩, ?_⟩
        · intro p hp
          simp only [bufPoints] at hp
          rw [hps.1] at hp
          rcases List.mem_append.mp hp with hmem | hmem
          · exact hfrbuf p hmem
          · rw [List.mem_singleton.mp hmem]
            exact hpt
        · intro batch hbatch op hop q hq
          simp only [List.mem_singleton] at hbatch
          subst hbatch
          exact hfrbatch op hop q hq
  · cases hpu : b.push point with
    | error e =>
      simp only []
      refine ⟨⟨hmeas, ?_⟩, ?_⟩
      · intro p hp
        simp only [bufPoints, hw] at hp
        exact hbd p hp
      · intro batch hbatch
        simp at hbatch
    | ok b2 =>
      simp only []
      have hps := push_ok_shape _ _ _ hpu
      refine ⟨⟨hmeas, ?_⟩, ?_⟩
      · intro p hp
        simp only [bufPoints] at hp
        rw [hps.1] at hp
        rcases List.mem_append.mp hp with hmem | hmem
        · exact hbd p hmem
        · rw [List.mem_singleton.mp hmem]
          exact hpt
      · intro batch hbatch
        simp at hbatch

/-- C10 (implicit): the measurement field is never assigned — it is `""` in
the constructed writer state, every `Write` preserves that (together with the
fact that all buffered points carry measurement `""`), and every point handed
to the sink carries measurement `""`. -/
theorem measurement_always_empty :
    (∀ (app host pid : String) (fi bl : Int), MeasOK (mkLogWriter app host pid fi bl)) ∧
    (∀ (sink : SinkOracle) (w : LogWriter) (level : Level) (args : List GoVal)
        (fields : Fields) (ts : GoTime), MeasOK w →
      MeasOK ((LogWriter.Write sink w level args fields ts).writer) ∧
      (∀ batch ∈ (LogWriter.Write sink w level args fields ts).sent,
        ∀ op ∈ batch, ∀ q, op = some q → q.measurement = "")) := by
  constructor
  · intro app host pid fi bl
    refine ⟨rfl, ?_⟩
    intro p hp
    by_cases hbl : bl > 0 <;> simp [bufPoints, mkLogWriter, hbl] at hp
  · intro sink w level args fields ts hm
    have hpt : (mkWritePoint w level args fields ts).measurement = "" := hm.1
    cases hw : w.buffer with
    | none =>
      constructor
      · simpa [LogWriter.Write, hw] using hm
      · intro batch hbatch op hop q hq
        simp only [LogWriter.Write, hw, List.mem_singleton] at hbatch
        subst hbatch
        simp only [List.mem_singleton] at hop
        subst hop
        cases hq
        exact hpt
    | some b =>
      by_cases h0 : w.flushInterval = 0
      · constructor
        · simpa [LogWriter.Write, hw, h0] using hm
        · intro batch hbatch op hop q hq
          simp only [LogWriter.Write, hw, h0, if_pos, List.mem_singleton] at hbatch
          subst hbatch
          simp only [List.mem_singleton] at hop
          subst hop
          cases hq
          exact hpt
      · have hbd : ∀ p ∈ b.data, p.measurement = "" := by
          intro p hp
          refine hm.2 p ?_
          simp only [bufPoints, hw]
          exact hp
        have hres := writeBuffered_meas sink w b (mkWritePoint w level args fields ts)
          hw hm.1 hbd hpt
        constructor
        · have heq : (LogWriter.Write sink w level args fields ts).writer
              = (writeBuffered sink w b (mkWritePoint w level args fields ts)).writer := by
            simp [LogWriter.Write, hw, h0]
          rw [heq]
          exact hres.1
        · have heq : (LogWriter.Write sink w level args fields ts).sent
              = (writeBuffered sink w b (mkWritePoint w level args fields ts)).sent := by
            simp [LogWriter.Write, hw, h0]
          rw [heq]
          exact hres.2

/-- Witness for C10 at the concrete buffered writer `w0`. -/
theorem measurement_always_empty_witness :
    MeasOK ((LogWriter.Write sinkOk w0 Level.infoLevel [GoVal.vstr "m"] noFields t1).writer) :=
  (measurement_always_empty.2 sinkOk w0 Level.infoLevel [GoVal.vstr "m"] noFields t1
    ⟨rfl, by intro p hp; simp [bufPoints, w0, mkLogWriter] at hp⟩).1

/-! ### Construction (`NewLogWriter`, logger.go:49-86) -/

/-- Outcome of `NewLogWriter`: an error return, a Go runtime panic, or a
writer. -/
inductive ConstructRes
  | err (e : GoErr)
  | panicked (msg : String)
  | ok (w : LogWriter)

/-- The seven levels, as iterated by the tag-initialization loop over
`severityMap`. -/
def allLevels : List Level :=
  [Level.traceLevel, Level.debugLevel, Level.infoLevel, Level.warnLevel,
   Level.errorLevel, Level.fatalLevel, Level.panicLevel]

/-- Go semantics of `m[k] = v` on a map variable that may hold the zero
value: assignment into a nil map is a runtime panic. -/
def goMapAssign (m : Option (Level → Option (String → Option String)))
    (k : Level) (v : String → Option String) :
    Except String (Option (Level → Option (String → Option String))) :=
  match m with
  | none => Except.error "assignment to entry in nil map"
  | some f => Except.ok (some (fun x => if x = k then some v else f x))

/-- `NewLogWriter` (logger.go:49-86).  `parseOk` stands for whether the
external `influxdb3.NewFromConnectionString(connection)` call succeeds;
`ringqueue.NewUnsafe` succeeds for positive sizes (modelled from the spec's
ring-buffer contract).  The struct literal at line 57 sets only `client` and
`flushInterval`, leaving the `tags` map field at its zero value nil; the
`// initialize tags` loop (line 68) then assigns into that nil map, which
panics. -/
def NewLogWriter (parseOk : Bool) (appName host procId : String)
    (flushInterval : Int) (bufferLimit : Int) : ConstructRes :=
  if parseOk = false then ConstructRes.err GoErr.connection
  else if flushInterval < 0 then ConstructRes.err GoErr.invalidFlushInterval
  else
    let buffer : Option RingBuf :=
      if bufferLimit > 0 then some { cap := bufferLimit.toNat, data := [] } else none
    let tags0 : Option (Level → Option (String → Option String)) := none
    match allLevels.foldlM
        (fun m level => goMapAssign m level (levelTagSet appName host level)) tags0 with
    | Except.error msg => ConstructRes.panicked msg
    | Except.ok tagsM =>
      ConstructRes.ok
        { measurement := ""
          appName := appName
          host := host
          tags := fun l =>
            match tagsM with
            | none => fun _ => none
            | some f => (f l).getD (fun _ => none)
          fields := defaultFieldsMap procId
          flushInterval := flushInterval
          buffer := buffer }

/-- C2: evaluation of the constructor.  The two documented failure cases do
fail as claimed, but the success clause of the claim is false: for every
parsable connection and non-negative flush interval (here interval 0, any
buffer limit), construction does not return a usable writer — it panics with
"assignment to entry in nil map" because the `tags` map is never allocated
before the `// initialize tags` loop assigns into it. -/
theorem construction_always_panics :
    (∀ (app host pid : String) (bl : Int),
      NewLogWriter true app host pid 0 bl
        = ConstructRes.panicked "assignment to entry in nil map") ∧
    NewLogWriter false "app" "host1" "pid1" 0 0 = ConstructRes.err GoErr.connection ∧
    NewLogWriter true "app" "host1" "pid1" (-1) 0
      = ConstructRes.err GoErr.invalidFlushInterval :=
  ⟨fun _ _ _ _ => rfl, rfl, rfl⟩

/-! ### Logger facade (logger.go:143-187) -/

/-- The `Logger` struct (logger.go:143): a writer reference and the attached
fields. -/
structure Logger where
  writer : LogWriter
  fields : Fields

/-- `Logger.WithFields` (logger.go:159-164): same writer, fields replaced
wholesale. -/
def Logger.WithFields (l : Logger) (fields : Fields) : Logger :=
  { writer := l.writer, fields := fields }

/-- `Logger.WithAdditionalFields` (logger.go:166-170):
`merged := maps.Clone(fields); maps.Copy(merged, l.fields)` — the logger's
current fields overwrite the argument on every key collision. -/
def Logger.WithAdditionalFields (l : Logger) (fields : Fields) : Logger :=
  l.WithFields (fun k =>
    match l.fields k with
    | some v => some v
    | none => fields k)

/-- C7: `WithAdditionalFields` returns a new Logger sharing the same writer
whose field set is the union of the argument and the current attached fields,
the current attached fields winning on every key collision. -/
theorem with_additional_fields_merge (l : Logger) (fields : Fields) :
    (l.WithAdditionalFields fields).writer = l.writer ∧
    (∀ k v, l.fields k = some v → (l.WithAdditionalFields fields).fields k = some v) ∧
    (∀ k, l.fields k = none → (l.WithAdditionalFields fields).fields k = fields k) := by
  refine ⟨rfl, ?_, ?_⟩
  · intro k v h
    simp [Logger.WithAdditionalFields, Logger.WithFields, h]
  · intro k h
    simp [Logger.WithAdditionalFields, Logger.WithFields, h]

/-- The key `"a"`. -/
def aKey : Key := "a".toList

/-- A logger already carrying `{"a": 2}`. -/
def lg7 : Logger :=
  { writer := w0, fields := fun k => if k = aKey then some (GoVal.vint 2) else none }

/-- The argument field set `{"a": 1}`. -/
def f7 : Fields := fun k => if k = aKey then some (GoVal.vint 1) else none

/-- Witness for C7: `WithAdditionalFields({"a":1})` on a Logger carrying
`{"a":2}` yields `"a":2`. -/
theorem with_additional_fields_merge_witness :
    (lg7.WithAdditionalFields f7).fields aKey = some (GoVal.vint 2) :=
  (with_additional_fields_merge lg7 f7).2.1 aKey (GoVal.vint 2) rfl

/-- Control-flow effect of one `Logger.Log` call. -/
inductive LogEffect
  | normal
  | exitProcess (code : Nat)
  | panicked (msg : String)
  deriving DecidableEq

/-- Result of one `Logger.Log` call: the control-flow effect, the writer
state left behind and the batches handed to the sink.  There is no error
component — `Log` returns nothing to its caller. -/
structure LogRes where
  effect : LogEffect
  writer : LogWriter
  sent : List (List (Option Point))

/-- `Logger.Log` (logger.go:148-157): the write error is discarded
(`_ = l.writer.Write(...)`); afterwards a fatal-level call runs `os.Exit(1)`
and a panic-level call runs `panic(fmt.Sprint(args...))`. -/
def Logger.Log (sink : SinkOracle) (l : Logger) (level : Level)
    (args : List GoVal) (ts : GoTime) : LogRes :=
  let r := LogWriter.Write sink l.writer level args l.fields ts
  { effect :=
      if level = Level.fatalLevel then LogEffect.exitProcess 1
      else if level = Level.panicLevel then LogEffect.panicked (goSprint args)
      else LogEffect.normal
    writer := r.writer
    sent := r.sent }

/-- C8: `Log` never surfaces the write error (the effect is the same under
any sink, failing or not); after the write attempt a fatal-level call exits
with code 1, a panic-level call panics with the rendered message, and no
other level has a control-flow side effect. -/
theorem log_side_effects (sink : SinkOracle) (l : Logger) (level : Level)
    (args : List GoVal) (ts : GoTime) :
    (level = Level.fatalLevel →
      (Logger.Log sink l level args ts).effect = LogEffect.exitProcess 1) ∧
    (level = Level.panicLevel →
      (Logger.Log sink l level args ts).effect = LogEffect.panicked (goSprint args)) ∧
    (¬ level = Level.fatalLevel → ¬ level = Level.panicLevel →
      (Logger.Log sink l level args ts).effect = LogEffect.normal) ∧
    (∀ sink2 : SinkOracle,
      (Logger.Log sink2 l level args ts).effect
        = (Logger.Log sink l level args ts).effect) := by
  refine ⟨?_, ?_, ?_, ?_⟩
  · intro h
    simp [Logger.Log, h]
  · intro h
    subst h
    simp [Logger.Log]
  · intro h1 h2
    simp [Logger.Log, h1, h2]
  · intro sink2
    simp [Logger.Log]

/-- Witness for C8: a fatal-level call against a failing sink still exits
with code 1. -/
theorem log_side_effects_witness :
    (Logger.Log sinkBoom lg7 Level.fatalLevel [GoVal.vstr "f"] t1).effect
      = LogEffect.exitProcess 1 :=
  (log_side_effects sinkBoom lg7 Level.fatalLevel [GoVal.vstr "f"] t1).1 rfl

/-! ### Concurrency: interleaving semantics of `writeBuffered`
(logger.go:114-125).  Each goroutine runs `flushMutex.Lock()`, the capacity
check, optionally the drain with its in-flight sink call, the push, and the
deferred `Unlock()`.  The sink call spans two transitions (`beginFlush` /
`endFlush...`) so that an overlap of two in-flight flushes is expressible —
and then proved impossible. -/

/-- Program counter of one goroutine inside `writeBuffered`: not in the call;
holding the lock before the capacity check; mid-drain with the sink call in
flight; past the flush decision and about to push; finished (push done or
drain error returned), about to run the deferred unlock. -/
inductive PC
  | idle
  | locked
  | flushing
  | postFlush
  | done
  deriving DecidableEq

/-- Global state: the flush mutex (`none` = unlocked, `some t` = held by
goroutine `t`), each goroutine's program counter, and the shared ring
buffer. -/
structure CState where
  lock : Option Nat
  pcs : Nat → PC
  buf : RingBuf

/-- Update one goroutine's program counter. -/
def setPC (pcs : Nat → PC) (t : Nat) (v : PC) : Nat → PC :=
  fun u => if u = t then v else pcs u

/-- The buffer as the drain of `flushBuffer` leaves it. -/
def drainBuf (b : RingBuf) : RingBuf :=
  (drainLoop b.len b (List.replicate b.len none) 0).1

/-- The buffer after `Push` (unchanged when the push errors). -/
def pushBuf (b : RingBuf) (p : Point) : RingBuf :=
  match b.push p with
  | Except.ok b2 => b2
  | Except.error _ => b

/-- One interleaved step of some goroutine `t` running `writeBuffered` with
point `pointOf t`.  `acquire` blocks unless the mutex is free; every later
step of `t` is enabled by `t`'s own program counter alone — that mutual
exclusion nevertheless holds is the content of the theorem, not an
assumption. -/
inductive CStep (pointOf : Nat → Point) : CState → CState → Prop
  | acquire (s : CState) (t : Nat) :
      s.lock = none → s.pcs t = PC.idle →
      CStep pointOf s { lock := some t, pcs := setPC s.pcs t PC.locked, buf := s.buf }
  | beginFlush (s : CState) (t : Nat) :
      s.pcs t = PC.locked → s.buf.len = s.buf.cap →
      CStep pointOf s
        { lock := s.lock, pcs := setPC s.pcs t PC.flushing, buf := drainBuf s.buf }
  | skipFlush (s : CState) (t : Nat) :
      s.pcs t = PC.locked → ¬ s.buf.len = s.buf.cap →
      CStep pointOf s { lock := s.lock, pcs := setPC s.pcs t PC.postFlush, buf := s.buf }
  | endFlushOk (s : CState) (t : Nat) :
      s.pcs t = PC.flushing →
      CStep pointOf s { lock := s.lock, pcs := setPC s.pcs t PC.postFlush, buf := s.buf }
  | endFlushErr (s : CState) (t : Nat) :
      s.pcs t = PC.flushing →
      CStep pointOf s { lock := s.lock, pcs := setPC s.pcs t PC.done, buf := s.buf }
  | pushStep (s : CState) (t : Nat) :
      s.pcs t = PC.postFlush →
      CStep pointOf s
        { lock := s.lock, pcs := setPC s.pcs t PC.done, buf := pushBuf s.buf (pointOf t) }
  | release (s : CState) (t : Nat) :
      s.pcs t = PC.done →
      CStep pointOf s { lock := none, pcs := setPC s.pcs t PC.idle, buf := s.buf }

/-- Initial state: mutex free, every goroutine idle, empty buffer. -/
def initCState (cap : Nat) : CState :=
  { lock := none, pcs := fun _ => PC.idle, buf := { cap := cap, data := [] } }

/-- States reachable by interleaved `writeBuffered` calls. -/
def ReachableC (pointOf : Nat → Point) (cap : Nat) (s : CState) : Prop :=
  Relation.ReflTransGen (CStep pointOf) (initCState cap) s

/-- The lock discipline: every goroutine that is anywhere inside
`writeBuffered` is the mutex holder. -/
def lockInv (s : CState) : Prop := ∀ t, ¬ s.pcs t = PC.idle → s.lock = some t

lemma setPC_ne (pcs : Nat → PC) (t : Nat) (v : PC) (u : Nat) (h : ¬ u = t) :
    setPC pcs t v u = pcs u := by
  simp [setPC, h]

lemma setPC_eq (pcs : Nat → PC) (t : Nat) (v : PC) : setPC pcs t v t = v := by
  simp [setPC]

/-- Every step preserves the lock discipline. -/
lemma cstep_lockInv {pointOf : Nat → Point} {s s2 : CState}
    (h : CStep pointOf s s2) (hinv : lockInv s) : lockInv s2 := by
  cases h with
  | acquire t hl hp =>
    intro u hu
    dsimp only at hu ⊢
    by_cases hut : u = t
    · subst hut; rfl
    · rw [setPC_ne s.pcs t PC.locked u hut] at hu
      exact absurd (hinv u hu) (by rw [hl]; exact fun hc => Option.noConfusion hc)
  | beginFlush t hp hful =>
    intro u hu
    dsimp only at hu ⊢
    by_cases hut : u = t
    · subst hut
      exact hinv u (by rw [hp]; exact fun hc => PC.noConfusion hc)
    · rw [setPC_ne s.pcs t PC.flushing u hut] at hu
      exact hinv u hu
  | skipFlush t hp hful =>
    intro u hu
    dsimp only at hu ⊢
    by_cases hut : u = t
    · subst hut
      exact hinv u (by rw [hp]; exact fun hc => PC.noConfusion hc)
    · rw [setPC_ne s.pcs t PC.postFlush u hut] at hu
      exact hinv u hu
  | endFlushOk t hp =>
    intro u hu
    dsimp only at hu ⊢
    by_cases hut : u = t
    · subst hut
      exact hinv u (by rw [hp]; exact fun hc => PC.noConfusion hc)
    · rw [setPC_ne s.pcs t PC.postFlush u hut] at hu
      exact hinv u hu
  | endFlushErr t hp =>
    intro u hu
    dsimp only at hu ⊢
    by_cases hut : u = t
    · subst hut
      exact hinv u (by rw [hp]; exact fun hc => PC.noConfusion hc)
    · rw [setPC_ne s.pcs t PC.done u hut] at hu
      exact hinv u hu
  | pushStep t hp =>
    intro u hu
    dsimp only at hu ⊢
    by_cases hut : u = t
    · subst hut
      exact hinv u (by rw [hp]; exact fun hc => PC.noConfusion hc)
    · rw [setPC_ne s.pcs t PC.done u hut] at hu
      exact hinv u hu
  | release t hp =>
    intro u hu
    dsimp only at hu ⊢
    exfalso
    by_cases hut : u = t
    · subst hut
      rw [setPC_eq s.pcs u PC.idle] at hu
      exact hu rfl
    · rw [setPC_ne s.pcs t PC.idle u hut] at hu
      have h1 := hinv u hu
      have h2 := hinv t (by rw [hp]; exact fun hc => PC.noConfusion hc)
      exact hut (Option.some.inj (h2.symm.trans h1)).symm

/-- The lock discipline holds in every reachable state. -/
lemma reachable_lockInv (pointOf : Nat → Point) (cap : Nat) :
    ∀ s, ReachableC pointOf cap s → lockInv s := by
  intro s h
  induction h with
  | refl => intro t ht; exact absurd rfl ht
  | tail hab hbc ih => exact cstep_lockInv hbc ih

/-- C9: under any number of concurrent callers, in every reachable state
every goroutine inside `writeBuffered` (capacity check, drain-and-write,
push) holds the single exclusive lock — so the whole critical section is
serialized and no push can be lost between the flush decision and the push —
and in particular at most one drain's sink call is in flight: two goroutines
simultaneously mid-flush are equal. -/
theorem buffered_writes_serialized (pointOf : Nat → Point) (cap : Nat)
    (s : CState) (h : ReachableC pointOf cap s) :
    (∀ t, ¬ s.pcs t = PC.idle → s.lock = some t) ∧
    (∀ t u, s.pcs t = PC.flushing → s.pcs u = PC.flushing → t = u) := by
  have hinv := reachable_lockInv pointOf cap s h
  refine ⟨hinv, ?_⟩
  intro t u ht hu
  have h1 := hinv t (by rw [ht]; exact fun hc => PC.noConfusion hc)
  have h2 := hinv u (by rw [hu]; exact fun hc => PC.noConfusion hc)
  exact Option.some.inj (h1.symm.trans h2)

/-- Points pushed by the goroutines of the C9 witness. -/
def pointOf0 : Nat → Point := fun _ => p6

/-- Witness for C9 at a concrete reachable state: after goroutine 0 acquires
the mutex, the theorem reports it as the lock holder. -/
theorem buffered_writes_serialized_witness :
    ({ lock := some 0, pcs := setPC (initCState 3).pcs 0 PC.locked,
       buf := (initCState 3).buf } : CState).lock = some 0 :=
  (buffered_writes_serialized pointOf0 3 _
      (Relation.ReflTransGen.single (CStep.acquire (initCState 3) 0 rfl rfl))).1 0
    (by intro hc; dsimp only at hc; rw [setPC_eq] at hc; exact PC.noConfusion hc)

end InfluxLogger
